import Mathlib

/-!
Verification development for the `cloudflare-browser-skill` repository.

The batch tool (`scripts/batch-processor.js`) is embedded shallowly:

* JS strings are Lean `String`s; byte strings (the domain of `btoa`) are
  `List Nat` with values below 256; char codes are `Nat`.
* The external collaborators (the rendering client `client.screenshot` /
  `client.pdf` / `client.content` / `client.markdown`, the platform URL
  parser `new URL`, the clock `_getTimestamp`, and the file system
  `_ensureDir` / `_writeFile`) are oracles collected in an `Env` record;
  a fallible call is `Except String α` (the `String` is the thrown
  error's `.message`).
* Each batch method is a pure function of the oracle environment that
  returns the `results` array together with a trace of observable
  events: one `Event.attempt` per invocation of the rendering client
  and one `Event.delayed` per `_delay` call, in program order.
* Artifact payloads are opaque: a screenshot is `Unit`, a PDF is its
  byte length, extracted content is the `String` itself.
-/

namespace BatchSkill

/-- Status tag of one per-URL result entry (`status: 'success' | 'error'`). -/
inductive Status where
  | success
  | error
deriving DecidableEq

/-- One entry of the `results` array.  JS object fields that a branch does
not set are `none` (absent). -/
structure ItemResult where
  url : String
  status : Status
  filepath : Option String := none
  filename : Option String := none
  timestamp : String
  error : Option String := none
  sizeBytes : Option Nat := none
  contentType : Option String := none
  sizeChars : Option Nat := none
deriving DecidableEq

/-- Observable events of a batch run: an invocation of the rendering
client for item `idx` (`attempt`), or a call to `_delay ms` (`delayed`). -/
inductive Event where
  | attempt (idx : Nat) (url : String)
  | delayed (ms : Int)
deriving DecidableEq

/-- Oracle environment: the external collaborators of the batch tool.
`parseURL` returns the hostname when `new URL(url)` succeeds; `ts` is the
clock read by `_getTimestamp`, indexed by a call counter; the remaining
fields are the rendering client and the file system, keyed by URL or
file path (written data is opaque). -/
structure Env where
  parseURL : String → Option String
  ts : Nat → String
  ensureDir : String → Except String Unit
  shoot : String → Except String Unit
  pdf : String → Except String Nat
  content : String → Except String String
  markdown : String → Except String String
  writeFile : String → Except String Unit

/-- Replace every '.' by '_' (the `hostname.replace(/\./g, '_')` step). -/
def dotsToUnderscores (host : String) : String :=
  String.mk (host.data.map (fun ch => if ch = '.' then '_' else ch))

/-- `_getDomain(url)`: hostname with dots replaced when the URL parses,
the literal `"unknown"` otherwise (the `try { new URL } catch` shape). -/
def getDomain (parseURL : String → Option String) (url : String) : String :=
  match parseURL url with
  | some host => dotsToUnderscores host
  | none => "unknown"

/-- JS `v || dflt` on an optional number: `undefined`, and the falsy
number 0, select the default. -/
def jsOrInt (v : Option Int) : Int → Int
  | dflt =>
    match v with
    | none => dflt
    | some x => if x = 0 then dflt else x

/-- JS `v || dflt` on an optional string: `undefined`, and the falsy
empty string, select the default. -/
def jsOrString (v : Option String) : String → String
  | dflt =>
    match v with
    | none => dflt
    | some s => if s = "" then dflt else s

/-- State produced by the `BatchProcessor` constructor.  The rendering
client it builds is opaque; only `maxWorkers` is recorded. -/
structure BatchProcessor where
  maxWorkers : Int

/-- The constructor: `this.maxWorkers = config.maxWorkers || 3`.  It
performs no validation and cannot throw. -/
def mkBatchProcessor (maxWorkersCfg : Option Int) : BatchProcessor :=
  { maxWorkers := jsOrInt maxWorkersCfg 3 }

/-- `getRetryDelay(attempt, baseDelay)` over exact rationals:
`baseDelay * 2 ^ attempt + jitter` where the jitter is
`Math.random() * 1000` and `rand` stands for the `Math.random()` draw. -/
def getRetryDelay (attempt : Nat) (baseDelay : ℚ) (rand : ℚ) : ℚ :=
  baseDelay * 2 ^ attempt + rand * 1000

/-- The `_delay` events produced at the bottom of a loop iteration:
`if (options.delay > 0 && i < urls.length - 1) await this._delay(delay)`. -/
def delayEvents (dly : Option Int) (i n : Nat) : List Event :=
  match dly with
  | none => []
  | some d => if 0 < d ∧ i < n - 1 then [Event.delayed d] else []

/-- Boolean success test on a result entry. -/
def isSuccess (r : ItemResult) : Bool :=
  match r.status with
  | Status.success => true
  | Status.error => false

/-- Boolean test for an `attempt` event. -/
def isAttemptEv (e : Event) : Bool :=
  match e with
  | Event.attempt _ _ => true
  | Event.delayed _ => false

/-- Boolean test for a `delayed` event. -/
def isDelayedEv (e : Event) : Bool :=
  match e with
  | Event.attempt _ _ => false
  | Event.delayed _ => true

/-- One iteration body of `batchScreenshots`: filename generation, the
client call, the artifact write; the `catch` branch produces the error
entry.  `c` is the `_getTimestamp` call counter; the returned counter
accounts for the extra clock read in the `catch` branch. -/
def screenshotItem (env : Env) (dir : String) (url : String) (c : Nat) :
    ItemResult × Nat :=
  let domain := getDomain env.parseURL url
  let tstamp := env.ts c
  let fname := domain ++ "_" ++ tstamp ++ ".png"
  let fpath := dir ++ "/" ++ fname
  match env.shoot url with
  | Except.ok _ =>
    match env.writeFile fpath with
    | Except.ok _ =>
      ({ url := url, status := Status.success, filepath := some fpath,
         filename := some fname, timestamp := tstamp }, c + 1)
    | Except.error msg =>
      ({ url := url, status := Status.error, timestamp := env.ts (c + 1),
         error := some msg }, c + 2)
  | Except.error msg =>
    ({ url := url, status := Status.error, timestamp := env.ts (c + 1),
       error := some msg }, c + 2)

/-- The `for` loop of `batchScreenshots`: one result entry per URL, an
`attempt` event per client call, and a `delayed` event after an item
that completed its `try` block when the delay option is positive and
the item is not the last (`i < urls.length - 1`). -/
def screenshotLoop (env : Env) (dir : String) (dly : Option Int) (n : Nat) :
    List String → Nat → Nat → List ItemResult × List Event
  | [], _, _ => ([], [])
  | url :: rest, i, c =>
    let rc := screenshotItem env dir url c
    let p := screenshotLoop env dir dly n rest (i + 1) rc.2
    let dlyEvs := if isSuccess rc.1 then delayEvents dly i n else []
    (rc.1 :: p.1, Event.attempt i url :: (dlyEvs ++ p.2))

/-- `batchScreenshots(urls, outputDir, options)`: ensure the directory,
run the loop, then persist the JSON and CSV reports (either write may
throw out of the call).  Returns the `results` array and the event
trace. -/
def batchScreenshots (env : Env) (urls : List String) (dir : String)
    (dly : Option Int) : Except String (List ItemResult × List Event) :=
  match env.ensureDir dir with
  | Except.error e => Except.error e
  | Except.ok _ =>
    match env.writeFile (dir ++ "/screenshot_results.json") with
    | Except.error e => Except.error e
    | Except.ok _ =>
      match env.writeFile (dir ++ "/screenshot_results.csv") with
      | Except.error e => Except.error e
      | Except.ok _ =>
        Except.ok (screenshotLoop env dir dly urls.length urls 0 0)

/-- One iteration body of `batchPdfs`; the artifact is its byte count,
recorded as `sizeBytes`. -/
def pdfItem (env : Env) (dir : String) (url : String) (c : Nat) :
    ItemResult × Nat :=
  let domain := getDomain env.parseURL url
  let tstamp := env.ts c
  let fname := domain ++ "_" ++ tstamp ++ ".pdf"
  let fpath := dir ++ "/" ++ fname
  match env.pdf url with
  | Except.ok size =>
    match env.writeFile fpath with
    | Except.ok _ =>
      ({ url := url, status := Status.success, filepath := some fpath,
         filename := some fname, timestamp := tstamp,
         sizeBytes := some size }, c + 1)
    | Except.error msg =>
      ({ url := url, status := Status.error, timestamp := env.ts (c + 1),
         error := some msg }, c + 2)
  | Except.error msg =>
    ({ url := url, status := Status.error, timestamp := env.ts (c + 1),
       error := some msg }, c + 2)

/-- The `for` loop of `batchPdfs`. -/
def pdfLoop (env : Env) (dir : String) (dly : Option Int) (n : Nat) :
    List String → Nat → Nat → List ItemResult × List Event
  | [], _, _ => ([], [])
  | url :: rest, i, c =>
    let rc := pdfItem env dir url c
    let p := pdfLoop env dir dly n rest (i + 1) rc.2
    let dlyEvs := if isSuccess rc.1 then delayEvents dly i n else []
    (rc.1 :: p.1, Event.attempt i url :: (dlyEvs ++ p.2))

/-- `batchPdfs(urls, outputDir, options)`. -/
def batchPdfs (env : Env) (urls : List String) (dir : String)
    (dly : Option Int) : Except String (List ItemResult × List Event) :=
  match env.ensureDir dir with
  | Except.error e => Except.error e
  | Except.ok _ =>
    match env.writeFile (dir ++ "/pdf_results.json") with
    | Except.error e => Except.error e
    | Except.ok _ =>
      match env.writeFile (dir ++ "/pdf_results.csv") with
      | Except.error e => Except.error e
      | Except.ok _ =>
        Except.ok (pdfLoop env dir dly urls.length urls 0 0)

/-- One iteration body of `batchExtractContent`: the resolved content
type picks the client call (`content` for `'html'`, `markdown`
otherwise) and the file extension; a success records `contentType` and
`sizeChars = content.length`. -/
def extractItem (env : Env) (dir : String) (ct ext : String) (url : String)
    (c : Nat) : ItemResult × Nat :=
  let domain := getDomain env.parseURL url
  let tstamp := env.ts c
  let fname := domain ++ "_" ++ tstamp ++ "." ++ ext
  let fpath := dir ++ "/" ++ fname
  match (if ct = "html" then env.content url else env.markdown url) with
  | Except.ok body =>
    match env.writeFile fpath with
    | Except.ok _ =>
      ({ url := url, status := Status.success, filepath := some fpath,
         filename := some fname, timestamp := tstamp,
         contentType := some ct, sizeChars := some body.length }, c + 1)
    | Except.error msg =>
      ({ url := url, status := Status.error, timestamp := env.ts (c + 1),
         error := some msg }, c + 2)
  | Except.error msg =>
    ({ url := url, status := Status.error, timestamp := env.ts (c + 1),
       error := some msg }, c + 2)

/-- The `for` loop of `batchExtractContent`. -/
def extractLoop (env : Env) (dir : String) (ct ext : String)
    (dly : Option Int) (n : Nat) :
    List String → Nat → Nat → List ItemResult × List Event
  | [], _, _ => ([], [])
  | url :: rest, i, c =>
    let rc := extractItem env dir ct ext url c
    let p := extractLoop env dir ct ext dly n rest (i + 1) rc.2
    let dlyEvs := if isSuccess rc.1 then delayEvents dly i n else []
    (rc.1 :: p.1, Event.attempt i url :: (dlyEvs ++ p.2))

/-- `batchExtractContent(urls, outputDir, options)`: the content type
defaults to `'html'` (`options.contentType || 'html'`), the extension is
`'html'` for HTML and `'md'` otherwise, and the report files are named
after the content type. -/
def batchExtractContent (env : Env) (urls : List String) (dir : String)
    (ctOpt : Option String) (dly : Option Int) :
    Except String (List ItemResult × List Event) :=
  let ct := jsOrString ctOpt "html"
  let ext := if ct = "html" then "html" else "md"
  match env.ensureDir dir with
  | Except.error e => Except.error e
  | Except.ok _ =>
    match env.writeFile (dir ++ "/" ++ ct ++ "_results.json") with
    | Except.error e => Except.error e
    | Except.ok _ =>
      match env.writeFile (dir ++ "/" ++ ct ++ "_results.csv") with
      | Except.error e => Except.error e
      | Except.ok _ =>
        Except.ok (extractLoop env dir ct ext dly urls.length urls 0 0)

/-- Shape invariant of one result entry: a success row carries the
artifact reference (`filepath`/`filename`) and no `error`; an error row
carries `error` and no artifact reference. -/
def resultShape (r : ItemResult) : Prop :=
  (r.status = Status.success →
    r.filepath.isSome ∧ r.filename.isSome ∧ r.error = none) ∧
  (r.status = Status.error →
    r.error.isSome ∧ r.filepath = none ∧ r.filename = none)

/-- Benign oracle environment: every external call succeeds. -/
def envOk : Env :=
  { parseURL := fun _ => some "example.com"
    ts := fun _ => "T"
    ensureDir := fun _ => Except.ok ()
    shoot := fun _ => Except.ok ()
    pdf := fun _ => Except.ok 10
    content := fun _ => Except.ok "body"
    markdown := fun _ => Except.ok "body"
    writeFile := fun _ => Except.ok () }

/-- Environment whose rendering client always fails (a retriable-style
remote error), while directory creation and report writes succeed. -/
def envFail : Env :=
  { envOk with
    shoot := fun _ => Except.error "boom"
    pdf := fun _ => Except.error "boom"
    content := fun _ => Except.error "boom"
    markdown := fun _ => Except.error "boom" }

/-- Environment where exactly the first example URL fails. -/
def envMix : Env :=
  { envOk with
    shoot := fun u =>
      if u = "https://a.com" then Except.error "boom" else Except.ok () }

/-! ### Per-item lemmas -/

theorem screenshotItem_url (env : Env) (dir url : String) (c : Nat) :
    (screenshotItem env dir url c).1.url = url := by
  simp only [screenshotItem]
  cases env.shoot url with
  | ok u => cases env.writeFile _ with
    | ok v => rfl
    | error msg => rfl
  | error msg => rfl

theorem pdfItem_url (env : Env) (dir url : String) (c : Nat) :
    (pdfItem env dir url c).1.url = url := by
  simp only [pdfItem]
  cases env.pdf url with
  | ok u => cases env.writeFile _ with
    | ok v => rfl
    | error msg => rfl
  | error msg => rfl

theorem extractItem_url (env : Env) (dir ct ext url : String) (c : Nat) :
    (extractItem env dir ct ext url c).1.url = url := by
  simp only [extractItem]
  cases (if ct = "html" then env.content url else env.markdown url) with
  | ok u => cases env.writeFile _ with
    | ok v => rfl
    | error msg => rfl
  | error msg => rfl

theorem screenshotItem_shape (env : Env) (dir url : String) (c : Nat) :
    resultShape (screenshotItem env dir url c).1 := by
  simp only [screenshotItem, resultShape]
  cases env.shoot url with
  | ok u =>
    cases env.writeFile _ with
    | ok v => exact ⟨fun _ => ⟨rfl, rfl, rfl⟩, fun h => nomatch h⟩
    | error msg => exact ⟨(fun h => nomatch h), fun _ => ⟨rfl, rfl, rfl⟩⟩
  | error msg => exact ⟨(fun h => nomatch h), fun _ => ⟨rfl, rfl, rfl⟩⟩

theorem pdfItem_shape (env : Env) (dir url : String) (c : Nat) :
    resultShape (pdfItem env dir url c).1 := by
  simp only [pdfItem, resultShape]
  cases env.pdf url with
  | ok u =>
    cases env.writeFile _ with
    | ok v => exact ⟨fun _ => ⟨rfl, rfl, rfl⟩, fun h => nomatch h⟩
    | error msg => exact ⟨(fun h => nomatch h), fun _ => ⟨rfl, rfl, rfl⟩⟩
  | error msg => exact ⟨(fun h => nomatch h), fun _ => ⟨rfl, rfl, rfl⟩⟩

theorem extractItem_shape (env : Env) (dir ct ext url : String) (c : Nat) :
    resultShape (extractItem env dir ct ext url c).1 := by
  simp only [extractItem, resultShape]
  cases (if ct = "html" then env.content url else env.markdown url) with
  | ok u =>
    cases env.writeFile _ with
    | ok v => exact ⟨fun _ => ⟨rfl, rfl, rfl⟩, fun h => nomatch h⟩
    | error msg => exact ⟨(fun h => nomatch h), fun _ => ⟨rfl, rfl, rfl⟩⟩
  | error msg => exact ⟨(fun h => nomatch h), fun _ => ⟨rfl, rfl, rfl⟩⟩

theorem screenshotItem_clientError (env : Env) (dir url : String) (c : Nat)
    (msg : String) (h : env.shoot url = Except.error msg) :
    (screenshotItem env dir url c).1.status = Status.error ∧
    (screenshotItem env dir url c).1.error = some msg := by
  simp only [screenshotItem]
  rw [h]
  exact ⟨rfl, rfl⟩

/-! ### Loop lemmas -/

theorem screenshotLoop_map_url (env : Env) (dir : String) (dly : Option Int)
    (n : Nat) : ∀ (urls : List String) (i c : Nat),
    (screenshotLoop env dir dly n urls i c).1.map ItemResult.url = urls := by
  intro urls
  induction urls with
  | nil => intro i c; rfl
  | cons u rest ih =>
    intro i c
    simp only [screenshotLoop, List.map_cons, screenshotItem_url, ih]

theorem pdfLoop_map_url (env : Env) (dir : String) (dly : Option Int)
    (n : Nat) : ∀ (urls : List String) (i c : Nat),
    (pdfLoop env dir dly n urls i c).1.map ItemResult.url = urls := by
  intro urls
  induction urls with
  | nil => intro i c; rfl
  | cons u rest ih =>
    intro i c
    simp only [pdfLoop, List.map_cons, pdfItem_url, ih]

theorem extractLoop_map_url (env : Env) (dir ct ext : String)
    (dly : Option Int) (n : Nat) : ∀ (urls : List String) (i c : Nat),
    (extractLoop env dir ct ext dly n urls i c).1.map ItemResult.url = urls := by
  intro urls
  induction urls with
  | nil => intro i c; rfl
  | cons u rest ih =>
    intro i c
    simp only [extractLoop, List.map_cons, extractItem_url, ih]

theorem screenshotLoop_shape (env : Env) (dir : String) (dly : Option Int)
    (n : Nat) : ∀ (urls : List String) (i c : Nat) (r : ItemResult),
    r ∈ (screenshotLoop env dir dly n urls i c).1 → resultShape r := by
  intro urls
  induction urls with
  | nil => intro i c r h; cases h
  | cons u rest ih =>
    intro i c r h
    simp only [screenshotLoop, List.mem_cons] at h
    rcases h with h | h
    · exact h ▸ screenshotItem_shape env dir u c
    · exact ih (i + 1) _ r h

theorem pdfLoop_shape (env : Env) (dir : String) (dly : Option Int)
    (n : Nat) : ∀ (urls : List String) (i c : Nat) (r : ItemResult),
    r ∈ (pdfLoop env dir dly n urls i c).1 → resultShape r := by
  intro urls
  induction urls with
  | nil => intro i c r h; cases h
  | cons u rest ih =>
    intro i c r h
    simp only [pdfLoop, List.mem_cons] at h
    rcases h with h | h
    · exact h ▸ pdfItem_shape env dir u c
    · exact ih (i + 1) _ r h

theorem extractLoop_shape (env : Env) (dir ct ext : String)
    (dly : Option Int) (n : Nat) : ∀ (urls : List String) (i c : Nat)
    (r : ItemResult),
    r ∈ (extractLoop env dir ct ext dly n urls i c).1 → resultShape r := by
  intro urls
  induction urls with
  | nil => intro i c r h; cases h
  | cons u rest ih =>
    intro i c r h
    simp only [extractLoop, List.mem_cons] at h
    rcases h with h | h
    · exact h ▸ extractItem_shape env dir ct ext u c
    · exact ih (i + 1) _ r h

theorem screenshotLoop_error_at (env : Env) (dir : String) (dly : Option Int)
    (n : Nat) : ∀ (urls : List String) (i c j : Nat) (u msg : String),
    urls[j]? = some u → env.shoot u = Except.error msg →
    ∃ r : ItemResult, (screenshotLoop env dir dly n urls i c).1[j]? = some r ∧
      r.status = Status.error ∧ r.error = some msg := by
  intro urls
  induction urls with
  | nil => intro i c j u msg h hf; cases h
  | cons u0 rest ih =>
    intro i c j u msg hj hfail
    cases j with
    | zero =>
      rw [List.getElem?_cons_zero, Option.some_inj] at hj
      have hfail0 : env.shoot u0 = Except.error msg := by rw [hj]; exact hfail
      refine ⟨(screenshotItem env dir u0 c).1, ?_, ?_⟩
      · simp only [screenshotLoop, List.getElem?_cons_zero]
      · exact screenshotItem_clientError env dir u0 c msg hfail0
    | succ j =>
      rw [List.getElem?_cons_succ] at hj
      obtain ⟨r, hr, hs, he⟩ :=
        ih (i + 1) ((screenshotItem env dir u0 c).2) j u msg hj hfail
      refine ⟨r, ?_, hs, he⟩
      simpa only [screenshotLoop, List.getElem?_cons_succ] using hr

/-! ### Extracting the loop value from a completed run -/

theorem batchScreenshots_ok (env : Env) (urls : List String) (dir : String)
    (dly : Option Int) (p : List ItemResult × List Event)
    (h : batchScreenshots env urls dir dly = Except.ok p) :
    p = screenshotLoop env dir dly urls.length urls 0 0 := by
  unfold batchScreenshots at h
  split at h
  · exact Except.noConfusion h
  · split at h
    · exact Except.noConfusion h
    · split at h
      · exact Except.noConfusion h
      · injection h with h2
        exact h2.symm

theorem batchPdfs_ok (env : Env) (urls : List String) (dir : String)
    (dly : Option Int) (p : List ItemResult × List Event)
    (h : batchPdfs env urls dir dly = Except.ok p) :
    p = pdfLoop env dir dly urls.length urls 0 0 := by
  unfold batchPdfs at h
  split at h
  · exact Except.noConfusion h
  · split at h
    · exact Except.noConfusion h
    · split at h
      · exact Except.noConfusion h
      · injection h with h2
        exact h2.symm

theorem batchExtractContent_ok (env : Env) (urls : List String) (dir : String)
    (ctOpt : Option String) (dly : Option Int)
    (p : List ItemResult × List Event)
    (h : batchExtractContent env urls dir ctOpt dly = Except.ok p) :
    p = extractLoop env dir (jsOrString ctOpt "html")
      (if jsOrString ctOpt "html" = "html" then "html" else "md")
      dly urls.length urls 0 0 := by
  simp only [batchExtractContent] at h
  split at h
  · exact Except.noConfusion h
  · split at h
    · exact Except.noConfusion h
    · split at h
      · exact Except.noConfusion h
      · injection h with h2
        exact h2.symm

/-! ### Further loop lemmas: attempt traces and delay counting -/

theorem filter_attempt_delayEvents (dly : Option Int) (i n : Nat) :
    (delayEvents dly i n).filter isAttemptEv = [] := by
  cases dly with
  | none => rfl
  | some d =>
    simp only [delayEvents]
    by_cases hc : 0 < d ∧ i < n - 1
    · rw [if_pos hc]; rfl
    · rw [if_neg hc]; rfl

theorem filter_attempt_dlyEvs (b : Bool) (dly : Option Int) (i n : Nat) :
    ((if b then delayEvents dly i n else []).filter isAttemptEv) = [] := by
  cases b with
  | false => rfl
  | true => exact filter_attempt_delayEvents dly i n

theorem screenshotLoop_attempts (env : Env) (dir : String) (dly : Option Int)
    (n : Nat) : ∀ (urls : List String) (i c : Nat),
    (screenshotLoop env dir dly n urls i c).2.filter isAttemptEv =
      (List.enumFrom i urls).map (fun q => Event.attempt q.1 q.2) := by
  intro urls
  induction urls with
  | nil => intro i c; rfl
  | cons u rest ih =>
    intro i c
    simp only [screenshotLoop, List.enumFrom, List.map_cons, List.filter_cons,
      List.filter_append, filter_attempt_dlyEvs, List.nil_append, ih,
      isAttemptEv, if_true]

theorem screenshotLoop_cons (env : Env) (dir : String) (dly : Option Int)
    (n : Nat) (url : String) (rest : List String) (i c : Nat) :
    screenshotLoop env dir dly n (url :: rest) i c =
      ((screenshotItem env dir url c).1 ::
        (screenshotLoop env dir dly n rest (i + 1)
          (screenshotItem env dir url c).2).1,
       Event.attempt i url ::
        ((if isSuccess (screenshotItem env dir url c).1 then
            delayEvents dly i n else []) ++
          (screenshotLoop env dir dly n rest (i + 1)
            (screenshotItem env dir url c).2).2)) := rfl

theorem screenshotLoop_delay_count (env : Env) (dir : String) (d : Int)
    (hd : 0 < d) (n : Nat) : ∀ (urls : List String) (i c : Nat),
    i + urls.length = n →
    (screenshotLoop env dir (some d) n urls i c).2.countP isDelayedEv =
      ((screenshotLoop env dir (some d) n urls i c).1.take
        (urls.length - 1)).countP isSuccess := by
  intro urls
  induction urls with
  | nil => intro i c hn; rfl
  | cons u rest ih =>
    intro i c hn
    rw [screenshotLoop_cons]
    cases rest with
    | nil =>
      have hni : ¬ (0 < d ∧ i < n - 1) := by
        simp only [List.length_cons, List.length_nil] at hn
        omega
      have hde : delayEvents (some d) i n = [] := by
        simp only [delayEvents]
        rw [if_neg hni]
      simp only [hde, ite_self]
      rfl
    | cons v rest2 =>
      have hlt : i < n - 1 := by
        simp only [List.length_cons] at hn
        omega
      have hde : delayEvents (some d) i n = [Event.delayed d] := by
        simp only [delayEvents]
        rw [if_pos ⟨hd, hlt⟩]
      have hn2 : (i + 1) + (v :: rest2).length = n := by
        simp only [List.length_cons] at hn ⊢
        omega
      have ihh := ih (i + 1) (screenshotItem env dir u c).2 hn2
      simp only [List.length_cons, Nat.add_sub_cancel] at ihh
      simp only [List.length_cons, Nat.add_sub_cancel, List.take_succ_cons,
        List.countP_cons, List.countP_append]
      rw [ihh, hde]
      cases hsu : isSuccess (screenshotItem env dir u c).1 with
      | false =>
        simp only [hsu, Bool.false_eq_true, if_false, List.countP_nil,
          isDelayedEv, eq_self_iff_true, if_true]
        omega
      | true =>
        simp only [hsu, isDelayedEv, List.countP_cons, List.countP_nil,
          eq_self_iff_true, if_true, Bool.false_eq_true, if_false]
        omega

/-! ### Helper: positional correspondence from the url-projection lemma -/

theorem map_url_index {rs : List ItemResult} {urls : List String}
    (h : rs.map ItemResult.url = urls) (i : Nat) (u : String)
    (hu : urls[i]? = some u) :
    ∃ r : ItemResult, rs[i]? = some r ∧ r.url = u := by
  subst h
  rw [List.getElem?_map] at hu
  cases hr : rs[i]? with
  | none => rw [hr] at hu; cases hu
  | some r =>
    rw [hr] at hu
    refine ⟨r, rfl, ?_⟩
    injection hu

/-! ### Claim theorems -/

/-- C1: for every input URL list, each of the three batch runs that
completes returns a results list whose url-projection is exactly the
input list — one entry per input URL, in order, none dropped, duplicated
or left pending. -/
theorem batch_results_one_per_url (env : Env) (urls : List String)
    (dir : String) (ctOpt : Option String) (dly : Option Int) :
    (∀ p, batchScreenshots env urls dir dly = Except.ok p →
      p.1.map ItemResult.url = urls) ∧
    (∀ p, batchPdfs env urls dir dly = Except.ok p →
      p.1.map ItemResult.url = urls) ∧
    (∀ p, batchExtractContent env urls dir ctOpt dly = Except.ok p →
      p.1.map ItemResult.url = urls) := by
  refine ⟨fun p h => ?_, fun p h => ?_, fun p h => ?_⟩
  · rw [batchScreenshots_ok env urls dir dly p h]
    exact screenshotLoop_map_url env dir dly urls.length urls 0 0
  · rw [batchPdfs_ok env urls dir dly p h]
    exact pdfLoop_map_url env dir dly urls.length urls 0 0
  · rw [batchExtractContent_ok env urls dir ctOpt dly p h]
    exact extractLoop_map_url env dir _ _ dly urls.length urls 0 0

/-- Witness for C1 at a concrete benign run. -/
theorem batch_results_one_per_url_witness :
    batchScreenshots envOk ["https://a.com"] "out" none =
      Except.ok (screenshotLoop envOk "out" none 1 ["https://a.com"] 0 0) ∧
    (screenshotLoop envOk "out" none 1 ["https://a.com"] 0 0).1.map
      ItemResult.url = ["https://a.com"] :=
  ⟨rfl,
   (batch_results_one_per_url envOk ["https://a.com"] "out" none none).1 _ rfl⟩

/-- C2: the failure of a single item never aborts the run.  Whenever the
directory step and the two report writes succeed, `batchScreenshots`
returns normally for every behavior of the rendering client and of the
per-item artifact writes; an item whose client call throws is recorded
at its own position with status error and the thrown message, and the
remaining items are still processed. -/
theorem batch_item_failure_isolated (env : Env) (urls : List String)
    (dir : String) (dly : Option Int)
    (hdir : env.ensureDir dir = Except.ok ())
    (hjson : env.writeFile (dir ++ "/screenshot_results.json") = Except.ok ())
    (hcsv : env.writeFile (dir ++ "/screenshot_results.csv") = Except.ok ()) :
    ∃ (rs : List ItemResult) (evs : List Event),
      batchScreenshots env urls dir dly = Except.ok (rs, evs) ∧
      rs.length = urls.length ∧
      ∀ (i : Nat) (u msg : String), urls[i]? = some u →
        env.shoot u = Except.error msg →
        ∃ r : ItemResult, rs[i]? = some r ∧ r.status = Status.error ∧
          r.error = some msg := by
  refine ⟨(screenshotLoop env dir dly urls.length urls 0 0).1,
          (screenshotLoop env dir dly urls.length urls 0 0).2, ?_, ?_, ?_⟩
  · unfold batchScreenshots
    rw [hdir, hjson, hcsv]
  · simpa using congrArg List.length
      (screenshotLoop_map_url env dir dly urls.length urls 0 0)
  · intro i u msg hu hf
    exact screenshotLoop_error_at env dir dly urls.length urls 0 0 i u msg hu hf

/-- Witness for C2: a two-URL run in which the first item's client call
throws still completes, with the failure recorded at position 0. -/
theorem batch_item_failure_isolated_witness :
    ∃ (rs : List ItemResult) (evs : List Event),
      batchScreenshots envMix ["https://a.com", "https://b.com"]
        "out" none = Except.ok (rs, evs) ∧ rs.length = 2 ∧
      ∃ r : ItemResult, rs[0]? = some r ∧ r.status = Status.error ∧
        r.error = some "boom" := by
  obtain ⟨rs, evs, hrun, hlen, hiso⟩ :=
    batch_item_failure_isolated envMix ["https://a.com", "https://b.com"]
      "out" none rfl rfl rfl
  obtain ⟨r, hr0, hst, herr⟩ := hiso 0 "https://a.com" "boom" rfl rfl
  exact ⟨rs, evs, hrun, hlen, r, hr0, hst, herr⟩

/-- C3 counterexample: with a rendering client that always throws (a
retriable-style remote failure) and a configured positive delay, the
whole trace of a one-URL `batchScreenshots` run is a single client
invocation — the item is attempted once, never `maxAttempts` (> 1)
times, and no retry wait is ever consulted in the batch path. -/
theorem batch_no_retry_counterexample :
    (batchScreenshots envFail ["https://a.com"] "out" (some 50)).map
      (fun p => p.2) = Except.ok [Event.attempt 0 "https://a.com"] := rfl

/-- C3 amended: every work item is attempted exactly once, in input
order, regardless of failures; the batch path performs no retries and
never consults `getRetryDelay`. -/
theorem batch_attempts_each_item_once (env : Env) (urls : List String)
    (dir : String) (dly : Option Int) :
    ∀ p, batchScreenshots env urls dir dly = Except.ok p →
      p.2.filter isAttemptEv =
        (List.enumFrom 0 urls).map (fun q => Event.attempt q.1 q.2) := by
  intro p h
  rw [batchScreenshots_ok env urls dir dly p h]
  exact screenshotLoop_attempts env dir dly urls.length urls 0 0

/-- Witness for the amended C3. -/
theorem batch_attempts_each_item_once_witness :
    batchScreenshots envFail ["https://a.com"] "out" none =
      Except.ok (screenshotLoop envFail "out" none 1 ["https://a.com"] 0 0) ∧
    (screenshotLoop envFail "out" none 1 ["https://a.com"] 0 0).2.filter
      isAttemptEv = [Event.attempt 0 "https://a.com"] :=
  ⟨rfl, by
    have h := batch_attempts_each_item_once envFail ["https://a.com"]
      "out" none _ rfl
    simpa using h⟩

/-- C4 counterexample: a configuration with concurrency < 1 does not
abort.  `maxWorkers = 0` is silently replaced by the default 3,
`maxWorkers = -2` is kept as is, the constructor never throws, and a
batch run under such a processor still processes its items. -/
theorem concurrency_not_validated :
    (mkBatchProcessor (some 0)).maxWorkers = 3 ∧
    (mkBatchProcessor (some (-2))).maxWorkers = -2 ∧
    (batchScreenshots envOk ["https://a.com"] "out" none).map
      (fun p => p.1.length) = Except.ok 1 :=
  ⟨rfl, rfl, rfl⟩

/-- C4 amended: the constructor performs no concurrency validation and
never aborts: a falsy `maxWorkers` (0, or absent) becomes the default 3
and every other value — including values below 1 — is accepted
unchanged; no `ConfigError` exists. -/
theorem mkBatchProcessor_total (v : Int) :
    (mkBatchProcessor (some v)).maxWorkers = (if v = 0 then 3 else v) ∧
    (mkBatchProcessor none).maxWorkers = 3 :=
  ⟨rfl, rfl⟩

/-- C5: in every completed batch run the i-th entry of the returned
results corresponds to the i-th input URL (the final report order is the
submission order, for all three batch operations). -/
theorem batch_results_positional (env : Env) (urls : List String)
    (dir : String) (ctOpt : Option String) (dly : Option Int) :
    (∀ (p : List ItemResult × List Event) (i : Nat) (u : String),
      batchScreenshots env urls dir dly = Except.ok p →
      urls[i]? = some u →
      ∃ r : ItemResult, p.1[i]? = some r ∧ r.url = u) ∧
    (∀ (p : List ItemResult × List Event) (i : Nat) (u : String),
      batchPdfs env urls dir dly = Except.ok p →
      urls[i]? = some u →
      ∃ r : ItemResult, p.1[i]? = some r ∧ r.url = u) ∧
    (∀ (p : List ItemResult × List Event) (i : Nat) (u : String),
      batchExtractContent env urls dir ctOpt dly = Except.ok p →
      urls[i]? = some u →
      ∃ r : ItemResult, p.1[i]? = some r ∧ r.url = u) := by
  refine ⟨fun p i u h hu => ?_, fun p i u h hu => ?_, fun p i u h hu => ?_⟩
  · rw [batchScreenshots_ok env urls dir dly p h]
    exact map_url_index
      (screenshotLoop_map_url env dir dly urls.length urls 0 0) i u hu
  · rw [batchPdfs_ok env urls dir dly p h]
    exact map_url_index
      (pdfLoop_map_url env dir dly urls.length urls 0 0) i u hu
  · rw [batchExtractContent_ok env urls dir ctOpt dly p h]
    exact map_url_index
      (extractLoop_map_url env dir _ _ dly urls.length urls 0 0) i u hu

/-- Witness for C5. -/
theorem batch_results_positional_witness :
    batchScreenshots envOk ["https://a.com"] "out" none =
      Except.ok (screenshotLoop envOk "out" none 1 ["https://a.com"] 0 0) ∧
    ∃ r : ItemResult,
      (screenshotLoop envOk "out" none 1 ["https://a.com"] 0 0).1[0]? =
      some r ∧ r.url = "https://a.com" :=
  ⟨rfl,
   (batch_results_positional envOk ["https://a.com"] "out" none none).1
     _ 0 "https://a.com" rfl rfl⟩

/-- C6: every entry of a completed batch run satisfies the exclusive
shape: a success entry carries the artifact reference
(`filepath`/`filename`) and no `error`; an error entry carries `error`
and no artifact reference — for all three batch operations. -/
theorem batch_entry_artifact_xor_error (env : Env) (urls : List String)
    (dir : String) (ctOpt : Option String) (dly : Option Int) :
    (∀ p r, batchScreenshots env urls dir dly = Except.ok p →
      r ∈ p.1 → resultShape r) ∧
    (∀ p r, batchPdfs env urls dir dly = Except.ok p →
      r ∈ p.1 → resultShape r) ∧
    (∀ p r, batchExtractContent env urls dir ctOpt dly = Except.ok p →
      r ∈ p.1 → resultShape r) := by
  refine ⟨fun p r h hr => ?_, fun p r h hr => ?_, fun p r h hr => ?_⟩
  · rw [batchScreenshots_ok env urls dir dly p h] at hr
    exact screenshotLoop_shape env dir dly urls.length urls 0 0 r hr
  · rw [batchPdfs_ok env urls dir dly p h] at hr
    exact pdfLoop_shape env dir dly urls.length urls 0 0 r hr
  · rw [batchExtractContent_ok env urls dir ctOpt dly p h] at hr
    exact extractLoop_shape env dir _ _ dly urls.length urls 0 0 r hr

/-- The single entry produced by the one-URL benign screenshot run. -/
def sampleShot : ItemResult := (screenshotItem envOk "out" "https://a.com" 0).1

/-- Witness for C6. -/
theorem batch_entry_artifact_xor_error_witness :
    batchScreenshots envOk ["https://a.com"] "out" none =
      Except.ok (screenshotLoop envOk "out" none 1 ["https://a.com"] 0 0) ∧
    resultShape sampleShot :=
  ⟨rfl,
   (batch_entry_artifact_xor_error envOk ["https://a.com"] "out" none none).1
     _ sampleShot rfl (List.mem_singleton_self sampleShot)⟩

/-- C7: `getRetryDelay` realizes exponential backoff with jitter in
[0, 1000): for every attempt number, non-negative base delay and
`Math.random()` draw in [0, 1), the returned delay lies in
[base * 2 ^ attempt, base * 2 ^ attempt + 1000). -/
theorem getRetryDelay_bounds (attempt : Nat) (baseDelay rand : ℚ)
    (hb : 0 ≤ baseDelay) (h0 : 0 ≤ rand) (h1 : rand < 1) :
    baseDelay * 2 ^ attempt ≤ getRetryDelay attempt baseDelay rand ∧
    getRetryDelay attempt baseDelay rand < baseDelay * 2 ^ attempt + 1000 := by
  unfold getRetryDelay
  constructor
  · nlinarith
  · nlinarith

/-- Witness for C7. -/
theorem getRetryDelay_bounds_witness :
    (0:ℚ) ≤ 500 ∧ (0:ℚ) ≤ 1/2 ∧ (1/2:ℚ) < 1 ∧
    (500 * 2 ^ 1 ≤ getRetryDelay 1 500 (1/2) ∧
      getRetryDelay 1 500 (1/2) < 500 * 2 ^ 1 + 1000) :=
  ⟨by norm_num, by norm_num, by norm_num,
   getRetryDelay_bounds 1 500 (1/2) (by norm_num) (by norm_num) (by norm_num)⟩

/-- C8 counterexample: with a positive configured delay and two URLs
where the first item fails, the whole trace contains no `_delay` call at
all — in particular no wait occurs after the failed item 0 before item 1
is claimed, contradicting the claim that the delay follows every item
whether it succeeded or failed. -/
theorem delay_skipped_after_failure :
    (batchScreenshots envMix ["https://a.com", "https://b.com"] "out"
      (some 50)).map (fun p => p.2) =
      Except.ok [Event.attempt 0 "https://a.com",
        Event.attempt 1 "https://b.com"] ∧
    [Event.attempt 0 "https://a.com",
      Event.attempt 1 "https://b.com"].countP isDelayedEv = 0 :=
  ⟨rfl, rfl⟩

/-- C8 amended: with a positive configured delay, a `batchScreenshots`
run performs exactly one pacing wait per item that succeeded and is not
the last; failed items (and the last item) proceed without a wait. -/
theorem delay_only_after_nonfinal_success (env : Env) (urls : List String)
    (dir : String) (d : Int) (hd : 0 < d) :
    ∀ p, batchScreenshots env urls dir (some d) = Except.ok p →
      p.2.countP isDelayedEv =
        (p.1.take (urls.length - 1)).countP isSuccess := by
  intro p h
  rw [batchScreenshots_ok env urls dir (some d) p h]
  exact screenshotLoop_delay_count env dir d hd urls.length urls 0 0
    (by omega)

/-- Witness for the amended C8: two benign URLs with delay 50 yield one
pacing wait (after the first, non-final, successful item). -/
theorem delay_only_after_nonfinal_success_witness :
    batchScreenshots envOk ["https://a.com", "https://b.com"] "out"
      (some 50) = Except.ok (screenshotLoop envOk "out" (some 50) 2
        ["https://a.com", "https://b.com"] 0 0) ∧
    (screenshotLoop envOk "out" (some 50) 2
      ["https://a.com", "https://b.com"] 0 0).2.countP isDelayedEv =
    ((screenshotLoop envOk "out" (some 50) 2
      ["https://a.com", "https://b.com"] 0 0).1.take 1).countP isSuccess :=
  ⟨rfl, by
    have h := delay_only_after_nonfinal_success envOk
      ["https://a.com", "https://b.com"] "out" 50 (by norm_num) _ rfl
    simpa using h⟩

/-- Example hostname oracle for the C10 witness: parses one well-formed
URL and rejects everything else. -/
def parseURLex : String → Option String := fun s =>
  if s = "https://example.com/a" then some "example.com" else none

/-- C10: the domain-extraction step is total for every behavior of the
platform URL parser: it returns the hostname with dots replaced by
underscores when the URL parses, and the literal string "unknown"
otherwise, so filename generation never throws on an invalid URL. -/
theorem getDomain_total (parseURL : String → Option String) (url : String) :
    (∀ host, parseURL url = some host →
      getDomain parseURL url = dotsToUnderscores host) ∧
    (parseURL url = none → getDomain parseURL url = "unknown") := by
  constructor
  · intro host h
    unfold getDomain
    rw [h]
  · intro h
    unfold getDomain
    rw [h]

/-- Witness for C10. -/
theorem getDomain_total_witness :
    getDomain parseURLex "https://example.com/a" =
      dotsToUnderscores "example.com" ∧
    getDomain parseURLex "nonsense" = "unknown" :=
  ⟨(getDomain_total parseURLex "https://example.com/a").1 "example.com" rfl,
   (getDomain_total parseURLex "nonsense").2 rfl⟩

/-! ### Base64url encoding (`base64UrlEncode` / `base64UrlDecode`)

Strings are modelled as lists of char codes (`List Nat`).  The input of
`btoa` is a byte string: every code must be below 256.  `btoa`/`atob`
are the platform encoders (standard base64 with `=` padding; `atob`
implements forgiving-base64: trailing padding only, unused low bits
discarded). -/

/-- Index to char code in the standard base64 alphabet
`A-Z a-z 0-9 + /`. -/
def b64char (i : Nat) : Nat :=
  if i < 26 then 65 + i
  else if i < 52 then 97 + (i - 26)
  else if i < 62 then 48 + (i - 52)
  else if i = 62 then 43
  else 47

/-- Char code back to alphabet index; `none` off the alphabet (also for
the padding char `'='` = 61). -/
def b64index (ch : Nat) : Option Nat :=
  if 65 ≤ ch ∧ ch ≤ 90 then some (ch - 65)
  else if 97 ≤ ch ∧ ch ≤ 122 then some (ch - 97 + 26)
  else if 48 ≤ ch ∧ ch ≤ 57 then some (ch - 48 + 52)
  else if ch = 43 then some 62
  else if ch = 47 then some 63
  else none

/-- `btoa`: standard base64 of a byte string, three bytes to four
chars, with `'='` (61) padding on a final 1- or 2-byte group. -/
def btoa : List Nat → List Nat
  | [] => []
  | [b1] => [b64char (b1 / 4), b64char (b1 % 4 * 16), 61, 61]
  | [b1, b2] =>
    [b64char (b1 / 4), b64char (b1 % 4 * 16 + b2 / 16),
     b64char (b2 % 16 * 4), 61]
  | b1 :: b2 :: b3 :: rest =>
    b64char (b1 / 4) :: b64char (b1 % 4 * 16 + b2 / 16) ::
    b64char (b2 % 16 * 4 + b3 / 64) :: b64char (b3 % 64) :: btoa rest

/-- `atob` on a final (or padding-free two/three char) group producing
one or two bytes. -/
def atobTail (c1 c2 c3 c4 : Nat) : Option (List Nat) :=
  match b64index c1, b64index c2 with
  | some i1, some i2 =>
    if c3 = 61 then
      if c4 = 61 then some [i1 * 4 + i2 / 16] else none
    else
      match b64index c3 with
      | some i3 =>
        if c4 = 61 then some [i1 * 4 + i2 / 16, i2 % 16 * 16 + i3 / 4]
        else none
      | none => none
  | _, _ => none

/-- `atob`: forgiving-base64 decoding.  Groups of four chars yield three
bytes; `'='` is only legal as trailing padding; a leftover group of two
or three chars (no padding) is accepted; a leftover single char is an
error. -/
def atob : List Nat → Option (List Nat)
  | [] => some []
  | c1 :: c2 :: c3 :: c4 :: rest =>
    if c3 = 61 ∨ c4 = 61 then
      if rest = [] then atobTail c1 c2 c3 c4 else none
    else
      match b64index c1, b64index c2, b64index c3, b64index c4, atob rest with
      | some i1, some i2, some i3, some i4, some bs =>
        some ((i1 * 4 + i2 / 16) :: (i2 % 16 * 16 + i3 / 4) ::
          (i3 % 4 * 64 + i4) :: bs)
      | _, _, _, _, _ => none
  | [c1, c2] => atobTail c1 c2 61 61
  | [c1, c2, c3] => atobTail c1 c2 c3 61
  | _ => none

/-- The `.replace(/\+/g, '-')` step: 43 ↦ 45. -/
def replPlus (ch : Nat) : Nat := if ch = 43 then 45 else ch

/-- The `.replace(/\//g, '_')` step: 47 ↦ 95. -/
def replSlash (ch : Nat) : Nat := if ch = 47 then 95 else ch

/-- The decoder's dash-to-plus replace step: 45 ↦ 43. -/
def replDash (ch : Nat) : Nat := if ch = 45 then 43 else ch

/-- The decoder's underscore-to-slash replace step: 95 ↦ 47. -/
def replUnderscore (ch : Nat) : Nat := if ch = 95 then 47 else ch

/-- `base64UrlEncode(str)`:
`btoa(str).replace(/\+/g, '-').replace(/\//g, '_').replace(/=/g, '')`
over char codes: 43 ↦ 45, 47 ↦ 95, all 61 removed. -/
def base64UrlEncode (s : List Nat) : List Nat :=
  (((btoa s).map replPlus).map replSlash).filter (fun ch => ch != 61)

/-- `base64UrlDecode(str)`: re-pad with `'=='.substring` semantics (at
most two pad chars), undo the URL-safe replacements (45 ↦ 43, 95 ↦ 47)
and apply `atob`. -/
def base64UrlDecode (s : List Nat) : Option (List Nat) :=
  atob (((s ++ List.replicate (min ((4 - s.length % 4) % 4) 2) 61).map
    replDash).map replUnderscore)

/-! ### Base64 alphabet lemmas (checked by evaluation over `Fin 64`) -/

theorem b64index_b64char (i : Nat) (h : i < 64) :
    b64index (b64char i) = some i := by
  have hall : ∀ j : Fin 64, b64index (b64char j.val) = some j.val := by decide
  exact hall ⟨i, h⟩

theorem b64char_ne_61 (i : Nat) : b64char i ≠ 61 := by
  unfold b64char
  split_ifs <;> omega

theorem replChain_id (i : Nat) (h : i < 64) :
    replUnderscore (replDash (replSlash (replPlus (b64char i)))) =
      b64char i := by
  have hall : ∀ j : Fin 64,
      replUnderscore (replDash (replSlash (replPlus (b64char j.val)))) =
        b64char j.val := by decide
  exact hall ⟨i, h⟩

theorem repl_noSpecial (i : Nat) (h : i < 64) :
    replSlash (replPlus (b64char i)) ≠ 43 ∧
    replSlash (replPlus (b64char i)) ≠ 47 ∧
    replSlash (replPlus (b64char i)) ≠ 61 := by
  have hall : ∀ j : Fin 64,
      replSlash (replPlus (b64char j.val)) ≠ 43 ∧
      replSlash (replPlus (b64char j.val)) ≠ 47 ∧
      replSlash (replPlus (b64char j.val)) ≠ 61 := by decide
  exact hall ⟨i, h⟩

/-! ### Structure of `btoa` output -/

theorem btoa_structure : ∀ (fuel : Nat) (s : List Nat), s.length ≤ fuel →
    (∀ b ∈ s, b < 256) →
    ∃ core pad, btoa s = core ++ List.replicate pad 61 ∧ pad ≤ 2 ∧
      (core.length + pad) % 4 = 0 ∧
      ∀ ch ∈ core, ∃ i, i < 64 ∧ ch = b64char i := by
  intro fuel
  induction fuel with
  | zero =>
    intro s hl _
    have : s = [] := List.eq_nil_of_length_eq_zero (Nat.le_zero.mp hl)
    subst this
    exact ⟨[], 0, rfl, by omega, by decide, fun ch hch => absurd hch
      (List.not_mem_nil ch)⟩
  | succ fuel ih =>
    intro s hl hb
    rcases s with _ | ⟨b1, _ | ⟨b2, _ | ⟨b3, rest⟩⟩⟩
    · exact ⟨[], 0, rfl, by omega, by decide, fun ch hch => absurd hch
        (List.not_mem_nil ch)⟩
    · have h1 : b1 < 256 := hb b1 (by simp)
      refine ⟨[b64char (b1 / 4), b64char (b1 % 4 * 16)], 2, rfl, by omega,
        by simp, ?_⟩
      intro ch hch
      rcases List.mem_pair.mp hch with rfl | rfl
      · exact ⟨b1 / 4, by omega, rfl⟩
      · exact ⟨b1 % 4 * 16, by omega, rfl⟩
    · have h1 : b1 < 256 := hb b1 (by simp)
      have h2 : b2 < 256 := hb b2 (by simp)
      refine ⟨[b64char (b1 / 4), b64char (b1 % 4 * 16 + b2 / 16),
        b64char (b2 % 16 * 4)], 1, rfl, by omega, by simp, ?_⟩
      intro ch hch
      simp only [List.mem_cons, List.not_mem_nil, or_false] at hch
      rcases hch with rfl | rfl | rfl
      · exact ⟨b1 / 4, by omega, rfl⟩
      · exact ⟨b1 % 4 * 16 + b2 / 16, by omega, rfl⟩
      · exact ⟨b2 % 16 * 4, by omega, rfl⟩
    · have h1 : b1 < 256 := hb b1 (by simp)
      have h2 : b2 < 256 := hb b2 (by simp)
      have h3 : b3 < 256 := hb b3 (by simp)
      have hbr : ∀ b ∈ rest, b < 256 := fun b hbm => hb b (by simp [hbm])
      have hlr : rest.length ≤ fuel := by
        simp only [List.length_cons] at hl
        omega
      obtain ⟨core, pad, hbt, hp, hm, hc⟩ := ih rest hlr hbr
      refine ⟨b64char (b1 / 4) :: b64char (b1 % 4 * 16 + b2 / 16) ::
        b64char (b2 % 16 * 4 + b3 / 64) :: b64char (b3 % 64) :: core, pad,
        ?_, hp, ?_, ?_⟩
      · show btoa (b1 :: b2 :: b3 :: rest) = _
        rw [btoa, hbt]
        rfl
      · simp only [List.length_cons]
        omega
      · intro ch hch
        simp only [List.mem_cons] at hch
        rcases hch with rfl | rfl | rfl | rfl | hch
        · exact ⟨b1 / 4, by omega, rfl⟩
        · exact ⟨b1 % 4 * 16 + b2 / 16, by omega, rfl⟩
        · exact ⟨b2 % 16 * 4 + b3 / 64, by omega, rfl⟩
        · exact ⟨b3 % 64, by omega, rfl⟩
        · exact hc ch hch

/-! ### `atob` inverts `btoa` -/

theorem atob_btoa : ∀ (fuel : Nat) (s : List Nat), s.length ≤ fuel →
    (∀ b ∈ s, b < 256) → atob (btoa s) = some s := by
  intro fuel
  induction fuel with
  | zero =>
    intro s hl _
    have : s = [] := List.eq_nil_of_length_eq_zero (Nat.le_zero.mp hl)
    subst this
    rfl
  | succ fuel ih =>
    intro s hl hb
    rcases s with _ | ⟨b1, _ | ⟨b2, _ | ⟨b3, rest⟩⟩⟩
    · rfl
    · have h1 : b1 < 256 := hb b1 (by simp)
      show atob [b64char (b1 / 4), b64char (b1 % 4 * 16), 61, 61] = some [b1]
      simp only [atob, atobTail,
        b64index_b64char (b1 / 4) (by omega),
        b64index_b64char (b1 % 4 * 16) (by omega)]
      norm_num
      omega
    · have h1 : b1 < 256 := hb b1 (by simp)
      have h2 : b2 < 256 := hb b2 (by simp)
      show atob [b64char (b1 / 4), b64char (b1 % 4 * 16 + b2 / 16),
        b64char (b2 % 16 * 4), 61] = some [b1, b2]
      simp only [atob, atobTail,
        b64index_b64char (b1 / 4) (by omega),
        b64index_b64char (b1 % 4 * 16 + b2 / 16) (by omega),
        b64index_b64char (b2 % 16 * 4) (by omega),
        b64char_ne_61 (b2 % 16 * 4)]
      norm_num [b64char_ne_61 (b2 % 16 * 4)]
      omega
    · have h1 : b1 < 256 := hb b1 (by simp)
      have h2 : b2 < 256 := hb b2 (by simp)
      have h3 : b3 < 256 := hb b3 (by simp)
      have hbr : ∀ b ∈ rest, b < 256 := fun b hbm => hb b (by simp [hbm])
      have hlr : rest.length ≤ fuel := by
        simp only [List.length_cons] at hl
        omega
      have ihr := ih rest hlr hbr
      show atob (b64char (b1 / 4) :: b64char (b1 % 4 * 16 + b2 / 16) ::
        b64char (b2 % 16 * 4 + b3 / 64) :: b64char (b3 % 64) :: btoa rest) =
        some (b1 :: b2 :: b3 :: rest)
      simp only [atob,
        b64index_b64char (b1 / 4) (by omega),
        b64index_b64char (b1 % 4 * 16 + b2 / 16) (by omega),
        b64index_b64char (b2 % 16 * 4 + b3 / 64) (by omega),
        b64index_b64char (b3 % 64) (by omega), ihr]
      norm_num [b64char_ne_61 (b2 % 16 * 4 + b3 / 64), b64char_ne_61 (b3 % 64)]
      omega

/-- C9: for every byte string, `base64UrlDecode` inverts
`base64UrlEncode`, and the encoder's output contains none of the char
codes 43 (`'+'`), 47 (`'/'`), 61 (`'='`). -/
theorem base64Url_roundtrip_urlsafe (s : List Nat) (h : ∀ b ∈ s, b < 256) :
    base64UrlDecode (base64UrlEncode s) = some s ∧
    ∀ ch ∈ base64UrlEncode s, ch ≠ 43 ∧ ch ≠ 47 ∧ ch ≠ 61 := by
  obtain ⟨core, pad, hbt, hpad, hmod, hcore⟩ :=
    btoa_structure s.length s le_rfl h
  have henc : base64UrlEncode s = (core.map replPlus).map replSlash := by
    unfold base64UrlEncode
    rw [hbt, List.map_append, List.map_append, List.filter_append]
    have hrep : ((List.replicate pad 61).map replPlus).map replSlash =
        List.replicate pad 61 := by
      simp [List.map_replicate, replPlus, replSlash]
    rw [hrep]
    have hfil1 : (List.replicate pad 61).filter (fun ch => ch != 61) = [] := by
      induction pad with
      | zero => rfl
      | succ p ihp => simp [List.replicate_succ, List.filter_cons, ihp]
    have hfil2 : ((core.map replPlus).map replSlash).filter
        (fun ch => ch != 61) = (core.map replPlus).map replSlash := by
      rw [List.filter_eq_self]
      intro a ha
      rw [List.map_map] at ha
      obtain ⟨x, hx, rfl⟩ := List.mem_map.mp ha
      obtain ⟨i, hi, rfl⟩ := hcore x hx
      simpa [Function.comp, bne_iff_ne] using (repl_noSpecial i hi).2.2
    rw [hfil1, hfil2, List.append_nil]
  refine ⟨?_, ?_⟩
  · rw [henc]
    unfold base64UrlDecode
    have hlen : ((core.map replPlus).map replSlash).length = core.length := by
      simp
    have hpadlen : min ((4 - ((core.map replPlus).map replSlash).length
        % 4) % 4) 2 = pad := by
      rw [hlen]
      omega
    rw [hpadlen, List.map_append, List.map_append]
    have hrep2 : ((List.replicate pad 61).map replDash).map replUnderscore =
        List.replicate pad 61 := by
      simp [List.map_replicate, replDash, replUnderscore]
    rw [hrep2]
    have hcoreun : (((core.map replPlus).map replSlash).map replDash).map
        replUnderscore = core := by
      rw [List.map_map, List.map_map, List.map_map]
      have hpt : ∀ x ∈ core,
          (((replUnderscore ∘ replDash) ∘ replSlash) ∘ replPlus) x = id x := by
        intro x hx
        obtain ⟨i, hi, rfl⟩ := hcore x hx
        simpa [Function.comp] using replChain_id i hi
      rw [List.map_congr_left hpt, List.map_id]
    rw [hcoreun, ← hbt]
    exact atob_btoa s.length s le_rfl h
  · intro ch hch
    rw [henc, List.map_map] at hch
    obtain ⟨x, hx, rfl⟩ := List.mem_map.mp hch
    obtain ⟨i, hi, rfl⟩ := hcore x hx
    simpa [Function.comp] using repl_noSpecial i hi

/-- Witness for C9 at the byte string "Hey". -/
theorem base64Url_roundtrip_urlsafe_witness :
    (∀ b ∈ ([72, 101, 121] : List Nat), b < 256) ∧
    (base64UrlDecode (base64UrlEncode [72, 101, 121]) =
        some [72, 101, 121] ∧
      ∀ ch ∈ base64UrlEncode [72, 101, 121],
        ch ≠ 43 ∧ ch ≠ 47 ∧ ch ≠ 61) :=
  ⟨by decide, base64Url_roundtrip_urlsafe [72, 101, 121] (by decide)⟩

end BatchSkill
